import Mathlib

/-!
Verification of the particle-interaction engine of the GasSimulation repository.

The definitions below are a shallow embedding of the per-tick physics update in
`src/simulation/widget.py` (`update_simulation`, `calculate_mean_free_path`) and of
the configuration records in `src/schemas/physics.py` and `src/schemas/simulation.py`.
Python floats are modelled as real numbers; `math.atan2` is modelled via the complex
argument, which has the same range (-π, π] on reals.
-/

open Real

namespace GasSim

noncomputable section
open Classical in

/-- Model of Python's `math.atan2 y x`: the argument of the complex number x + y·i,
which lies in (-π, π]. -/
def atan2 (y x : ℝ) : ℝ := Complex.arg ⟨x, y⟩

open Classical in
/-- First normalization loop of the source (`while a > pi: a -= 2 * pi`). -/
def wrapDown (a : ℝ) : ℝ :=
  if h : π < a then wrapDown (a - 2 * π) else a
termination_by (⌈(a - π) / (2 * π)⌉).toNat
decreasing_by
  have h2 : (0:ℝ) < 2 * π := by positivity
  have key : (a - 2 * π - π) / (2 * π) = (a - π) / (2 * π) - 1 := by
    field_simp
    ring
  rw [key]
  have hsub : ⌈(a - π) / (2 * π) - 1⌉ = ⌈(a - π) / (2 * π)⌉ - 1 := by
    exact_mod_cast Int.ceil_sub_int ((a - π) / (2 * π)) 1
  rw [hsub]
  have hpos : 0 < ⌈(a - π) / (2 * π)⌉ :=
    Int.ceil_pos.mpr (div_pos (by linarith) h2)
  omega

open Classical in
/-- Second normalization loop of the source (`while a < -pi: a += 2 * pi`). -/
def wrapUp (a : ℝ) : ℝ :=
  if h : a < -π then wrapUp (a + 2 * π) else a
termination_by (⌈(-π - a) / (2 * π)⌉).toNat
decreasing_by
  have h2 : (0:ℝ) < 2 * π := by positivity
  have key : (-π - (a + 2 * π)) / (2 * π) = (-π - a) / (2 * π) - 1 := by
    field_simp
    ring
  rw [key]
  have hsub : ⌈(-π - a) / (2 * π) - 1⌉ = ⌈(-π - a) / (2 * π)⌉ - 1 := by
    exact_mod_cast Int.ceil_sub_int ((-π - a) / (2 * π)) 1
  rw [hsub]
  have hpos : 0 < ⌈(-π - a) / (2 * π)⌉ :=
    Int.ceil_pos.mpr (div_pos (by linarith) h2)
  omega

/-- The full angle normalization used after wall collisions, particle collisions and
rotation updates: both loops in sequence. -/
def normalizeAngle (a : ℝ) : ℝ := wrapUp (wrapDown a)

end

lemma wrapDown_le (a : ℝ) : wrapDown a ≤ π := by
  induction a using wrapDown.induct with
  | case1 a h ih =>
    rw [wrapDown, dif_pos h]
    exact ih
  | case2 a h =>
    rw [wrapDown, dif_neg h]
    linarith [not_lt.mp h]

lemma wrapDown_of_le {a : ℝ} (h : a ≤ π) : wrapDown a = a := by
  rw [wrapDown, dif_neg (not_lt.mpr h)]

lemma wrapUp_ge (a : ℝ) : -π ≤ wrapUp a := by
  induction a using wrapUp.induct with
  | case1 a h ih =>
    rw [wrapUp, dif_pos h]
    exact ih
  | case2 a h =>
    rw [wrapUp, dif_neg h]
    linarith [not_lt.mp h]

lemma wrapUp_le {a : ℝ} (h : a ≤ π) : wrapUp a ≤ π := by
  induction a using wrapUp.induct with
  | case1 a h1 ih =>
    rw [wrapUp, dif_pos h1]
    have hpi : (0:ℝ) < π := Real.pi_pos
    exact ih (by linarith)
  | case2 a h1 =>
    rw [wrapUp, dif_neg h1]
    exact h

lemma wrapUp_of_ge {a : ℝ} (h : -π ≤ a) : wrapUp a = a := by
  rw [wrapUp, dif_neg (not_lt.mpr h)]

lemma wrapDown_eq_sub (a : ℝ) : ∃ k : ℤ, wrapDown a = a + k * (2 * π) := by
  induction a using wrapDown.induct with
  | case1 a h ih =>
    obtain ⟨k, hk⟩ := ih
    refine ⟨k - 1, ?_⟩
    rw [wrapDown, dif_pos h, hk]
    push_cast
    ring
  | case2 a h =>
    exact ⟨0, by rw [wrapDown, dif_neg h]; push_cast; ring⟩

lemma wrapUp_eq_add (a : ℝ) : ∃ k : ℤ, wrapUp a = a + k * (2 * π) := by
  induction a using wrapUp.induct with
  | case1 a h ih =>
    obtain ⟨k, hk⟩ := ih
    refine ⟨k + 1, ?_⟩
    rw [wrapUp, dif_pos h, hk]
    push_cast
    ring
  | case2 a h =>
    exact ⟨0, by rw [wrapUp, dif_neg h]; push_cast; ring⟩

lemma normalizeAngle_eq_add (a : ℝ) : ∃ k : ℤ, normalizeAngle a = a + k * (2 * π) := by
  obtain ⟨k1, hk1⟩ := wrapDown_eq_sub a
  obtain ⟨k2, hk2⟩ := wrapUp_eq_add (wrapDown a)
  exact ⟨k1 + k2, by rw [normalizeAngle, hk2, hk1]; push_cast; ring⟩

lemma normalizeAngle_mem (a : ℝ) : -π ≤ normalizeAngle a ∧ normalizeAngle a ≤ π :=
  ⟨wrapUp_ge _, wrapUp_le (wrapDown_le a)⟩

lemma cos_normalizeAngle (a : ℝ) : Real.cos (normalizeAngle a) = Real.cos a := by
  obtain ⟨k, hk⟩ := normalizeAngle_eq_add a
  rw [hk, Real.cos_add_int_mul_two_pi]

lemma sin_normalizeAngle (a : ℝ) : Real.sin (normalizeAngle a) = Real.sin a := by
  obtain ⟨k, hk⟩ := normalizeAngle_eq_add a
  rw [hk, Real.sin_add_int_mul_two_pi]

/-! ## Data model: particles and configuration records (src/models/particle.py,
src/schemas/physics.py, src/schemas/simulation.py) -/

/-- The dynamical state of one gas particle (`GasParticle` in src/models/particle.py):
position, speed `v`, heading `a`, mass, collision radius. -/
structure Particle where
  x : ℝ
  y : ℝ
  v : ℝ
  a : ℝ
  mass : ℝ
  radius : ℝ

/-- `LennardJonesConfig` of src/schemas/physics.py. -/
structure LennardJonesConfig where
  enabled : Bool
  epsilon : ℝ
  sigma : ℝ
  cutoff_multiplier : ℝ

/-- `MorseConfig` of src/schemas/physics.py. -/
structure MorseConfig where
  enabled : Bool
  D_e : ℝ
  a : ℝ
  r_e : ℝ
  cutoff_multiplier : ℝ

/-- `DLVOConfig` of src/schemas/physics.py. -/
structure DLVOConfig where
  enabled : Bool
  hamaker_constant : ℝ
  surface_potential : ℝ
  debye_length : ℝ
  dielectric_constant : ℝ
  cutoff_distance : ℝ

/-- `InteractionPotentialsConfig` of src/schemas/physics.py. -/
structure InteractionPotentialsConfig where
  lennard_jones : LennardJonesConfig
  morse : MorseConfig
  dlvo : DLVOConfig
  max_force : ℝ
  softening_distance : ℝ

/-- `GravityConfig` of src/schemas/physics.py. -/
structure GravityConfig where
  enabled : Bool
  g : ℝ

/-- `CollisionConfig` of src/schemas/simulation.py. -/
structure CollisionConfig where
  distance_multiplier : ℝ
  overlap_threshold : ℝ
  prediction_step : ℝ

/-- The four per-wall accumulated momentum-transfer counters
(`delta_px_left`, `delta_px_right`, `delta_py_up`, `delta_py_down` in
src/simulation/widget.py). -/
structure WallCounters where
  delta_px_left : ℝ
  delta_px_right : ℝ
  delta_py_up : ℝ
  delta_py_down : ℝ

noncomputable section
open Classical

/-! ## Integrator: gravity and positional update (widget.py lines 222-235)

`update_simulation` has access to the whole configuration (including
`interaction_potentials`); the motion step below receives it the same way.
The source body reads only the gravity fields. -/

/-- One particle's motion update per tick: the optional gravity velocity update
(decompose into (vx, vy), add g·dt to vy, recompose speed and heading) followed by
the positional update x += v·cos a, y += v·sin a. -/
def moveParticle (gravity : GravityConfig) (ip : InteractionPotentialsConfig)
    (dt : ℝ) (p : Particle) : Particle :=
  let p1 :=
    if gravity.enabled then
      let vy := p.v * Real.sin p.a + gravity.g * dt
      let vx := p.v * Real.cos p.a
      { p with v := Real.sqrt (vx ^ 2 + vy ^ 2), a := atan2 vy vx }
    else p
  { p1 with x := p1.x + p1.v * Real.cos p1.a, y := p1.y + p1.v * Real.sin p1.a }

/-! ## Collision Resolver: wall collisions (widget.py lines 249-274) -/

/-- Left-wall check: if the particle has crossed the left wall while heading into the
left half-plane, reflect `a ↦ π - a` and accumulate `|2·m·v·cos a_new|` into the
left counter (the source reads `particle.a` after the reflection). -/
def checkLeftWall (p : Particle) (c : WallCounters) : Particle × WallCounters :=
  if p.x ≤ p.radius ∧ (π / 2 < p.a ∨ p.a < -(π / 2)) then
    ({ p with a := π - p.a },
     { c with delta_px_left := c.delta_px_left + |2 * p.mass * p.v * Real.cos (π - p.a)| })
  else (p, c)

/-- Right-wall check (`particle.x >= self.width - particle.radius`). -/
def checkRightWall (width : ℝ) (p : Particle) (c : WallCounters) :
    Particle × WallCounters :=
  if width - p.radius ≤ p.x ∧ (-(π / 2) < p.a ∧ p.a < π / 2) then
    ({ p with a := π - p.a },
     { c with delta_px_right := c.delta_px_right + |2 * p.mass * p.v * Real.cos (π - p.a)| })
  else (p, c)

/-- Top-wall check (`particle.y <= particle.radius`, heading in (-π, 0)). -/
def checkTopWall (p : Particle) (c : WallCounters) : Particle × WallCounters :=
  if p.y ≤ p.radius ∧ (-π < p.a ∧ p.a < 0) then
    ({ p with a := -p.a },
     { c with delta_py_up := c.delta_py_up + |2 * p.mass * p.v * Real.sin (-p.a)| })
  else (p, c)

/-- Bottom-wall check (`particle.y >= self.height - particle.radius`, heading in (0, π)). -/
def checkBottomWall (height : ℝ) (p : Particle) (c : WallCounters) :
    Particle × WallCounters :=
  if height - p.radius ≤ p.y ∧ (0 < p.a ∧ p.a < π) then
    ({ p with a := -p.a },
     { c with delta_py_down := c.delta_py_down + |2 * p.mass * p.v * Real.sin (-p.a)| })
  else (p, c)

/-- The whole per-particle wall pass: the four checks in source order, then the
angle normalization loops. -/
def wallPass (width height : ℝ) (p : Particle) (c : WallCounters) :
    Particle × WallCounters :=
  let s1 := checkLeftWall p c
  let s2 := checkRightWall width s1.1 s1.2
  let s3 := checkTopWall s2.1 s2.2
  let s4 := checkBottomWall height s3.1 s3.2
  ({ s4.1 with a := normalizeAngle s4.1.a }, s4.2)

/-! ## Collision Resolver: pairwise collisions (widget.py lines 277-337) -/

/-- Euclidean separation of two particle centres (`dist` in the source). -/
def dist (p1 p2 : Particle) : ℝ :=
  Real.sqrt ((p1.x - p2.x) ^ 2 + (p1.y - p2.y) ^ 2)

/-- Broad-phase bound: both axis separations within
`distance_multiplier * p1.radius` — only the first particle's radius is used. -/
def broadPhase (cfg : CollisionConfig) (p1 p2 : Particle) : Prop :=
  |p1.x - p2.x| ≤ cfg.distance_multiplier * p1.radius ∧
  |p1.y - p2.y| ≤ cfg.distance_multiplier * p1.radius

/-- Contact test: separation within `p1.radius * 2 + overlap_threshold` — again only
the first particle's radius. -/
def contactTest (cfg : CollisionConfig) (p1 p2 : Particle) : Prop :=
  dist p1 p2 ≤ p1.radius * 2 + cfg.overlap_threshold

/-- A pair is treated as colliding by the pass when both the broad-phase bound and the
contact test hold. -/
def collisionDeclared (cfg : CollisionConfig) (p1 p2 : Particle) : Prop :=
  broadPhase cfg p1 p2 ∧ contactTest cfg p1 p2

/-- `collision_angle = atan2(Δy, Δx)` of the source. -/
def collisionAngle (p1 p2 : Particle) : ℝ := atan2 (p2.y - p1.y) (p2.x - p1.x)

/-- `normal_velocity1_new = (2 * p1.mass * p2.v * cos(velocity_angle2)) / (2 * p1.mass)`,
exactly as written in the source. -/
def normalVelocity1New (p1 p2 : Particle) : ℝ :=
  (2 * p1.mass * p2.v * Real.cos (p2.a - collisionAngle p1 p2)) / (2 * p1.mass)

/-- `normal_velocity2_new = (2 * p1.mass * p1.v * cos(velocity_angle1)) / (2 * p1.mass)`,
exactly as written in the source. -/
def normalVelocity2New (p1 p2 : Particle) : ℝ :=
  (2 * p1.mass * p1.v * Real.cos (p1.a - collisionAngle p1 p2)) / (2 * p1.mass)

/-- Resolution of one particle-particle collision (widget.py lines 299-337): rotate into
the collision frame, decompose into normal/tangential components, set the new normal
components per the source's formula, keep the tangential components, recombine into
speed and heading, and normalize both headings. -/
def resolveCollision (p1 p2 : Particle) : Particle × Particle :=
  let φ := collisionAngle p1 p2
  let t1 := p1.v * Real.sin (p1.a - φ)
  let t2 := p2.v * Real.sin (p2.a - φ)
  let n1 := normalVelocity1New p1 p2
  let n2 := normalVelocity2New p1 p2
  ({ p1 with v := Real.sqrt (n1 ^ 2 + t1 ^ 2), a := normalizeAngle (φ + atan2 t1 n1) },
   { p2 with v := Real.sqrt (n2 ^ 2 + t2 ^ 2), a := normalizeAngle (φ + atan2 t2 n2) })

/-! ## Heat / freeze modes (widget.py lines 352-358) -/

/-- Heat mode: every particle's speed is increased by `heat_rate`. -/
def heatParticle (heat_rate : ℝ) (p : Particle) : Particle :=
  { p with v := p.v + heat_rate }

/-- Freeze mode: a particle's speed is decreased by `freeze_rate`, but only when the
result stays positive. -/
def freezeParticle (freeze_rate : ℝ) (p : Particle) : Particle :=
  if 0 < p.v - freeze_rate then { p with v := p.v - freeze_rate } else p

/-! ## Observable Aggregator (widget.py lines 190-201 and 369-374, 479-483) -/

/-- Return type of `calculate_mean_free_path`: a finite float value or the
`float('inf')` sentinel. -/
inductive MFPValue
  | val : ℝ → MFPValue
  | infinity : MFPValue
deriving DecidableEq

/-- `calculate_mean_free_path` of src/simulation/widget.py, with `nn` the particle
count, `width`/`height` the container sides and `r1` the configured particle radius. -/
def calculate_mean_free_path (nn : ℕ) (width height r1 : ℝ) : MFPValue :=
  if nn = 0 ∨ width * height = 0 then .val 0
  else
    let particle_density := (nn : ℝ) / (width * height)
    let cross_section := π * (2 * r1) ^ 2
    if particle_density * cross_section = 0 then .infinity
    else .val (1 / (Real.sqrt 2 * particle_density * cross_section))

/-- The average pressure computed at an aggregation boundary (widget.py lines 371-374). -/
def avgPressure (time_check width height : ℝ) (c : WallCounters) : ℝ :=
  ((c.delta_px_left + c.delta_px_right) / (time_check * height) +
   (c.delta_py_up + c.delta_py_down) / (time_check * width)) / 4

/-- Aggregation state: the wall counters and the appended pressure series. -/
structure AggState where
  counters : WallCounters
  Pressure : List ℝ

/-- The aggregation step: append the average pressure computed from the accumulated
counters, then reset all four counters to zero (widget.py lines 369-374 and 479-483). -/
def aggregateStep (time_check width height : ℝ) (s : AggState) : AggState :=
  { counters := ⟨0, 0, 0, 0⟩,
    Pressure := s.Pressure ++ [avgPressure time_check width height s.counters] }

/-! ## Spec-modelled force field

The spec (§2, §4.1, §4.3) describes a pairwise-force step driven by a Force Field
Evaluator. No such code exists in the repository: `update_simulation` never reads
`interaction_potentials`, and no module evaluates a Lennard-Jones, Morse or DLVO
force. The definitions below are therefore the spec's claim, used only to compare
against the code. -/

/-- Modelled from the spec: missing Force Field Evaluator, Lennard-Jones branch.
`U(r) = 4ε[(σ/r)¹² − (σ/r)⁶]`, force `= −dU/dr` along the connecting line
(spec §4.3), so the magnitude is `4ε(12σ¹²/r¹³ − 6σ⁶/r⁷)`. -/
def specLJForce (eps sigma r : ℝ) : ℝ :=
  4 * eps * (12 * sigma ^ 12 / r ^ 13 - 6 * sigma ^ 6 / r ^ 7)

/-- Modelled from the spec: the x-velocity a particle should carry into the positional
update after the claimed pairwise-force step, `vx + (Fx/m)·dt` (spec §4.1). -/
def specForceStepVx (p : Particle) (Fx dt : ℝ) : ℝ :=
  p.v * Real.cos p.a + Fx / p.mass * dt

end

/-! ## Helper lemmas -/

lemma mk_complex_eq_ofReal (x : ℝ) : (⟨x, 0⟩ : ℂ) = (x : ℂ) := by
  apply Complex.ext <;> simp

lemma atan2_zero_of_pos {x : ℝ} (hx : 0 < x) : atan2 0 x = 0 := by
  rw [atan2, mk_complex_eq_ofReal]
  exact Complex.arg_ofReal_of_nonneg hx.le

lemma atan2_zero_of_neg {x : ℝ} (hx : x < 0) : atan2 0 x = π := by
  rw [atan2, mk_complex_eq_ofReal]
  exact Complex.arg_ofReal_of_neg hx

lemma cos_atan2 {y x : ℝ} (h : ¬(x = 0 ∧ y = 0)) :
    Real.cos (atan2 y x) = x / Real.sqrt (x ^ 2 + y ^ 2) := by
  have hz : (⟨x, y⟩ : ℂ) ≠ 0 := by
    intro hzero
    apply h
    constructor
    · exact congrArg Complex.re hzero
    · exact congrArg Complex.im hzero
  rw [atan2, Complex.cos_arg hz]
  congr 1
  rw [Complex.abs_apply, Complex.normSq_mk]
  congr 1
  ring

lemma sin_atan2 (y x : ℝ) :
    Real.sin (atan2 y x) = y / Real.sqrt (x ^ 2 + y ^ 2) := by
  rw [atan2, Complex.sin_arg]
  congr 1
  rw [Complex.abs_apply, Complex.normSq_mk]
  congr 1
  ring

lemma resolveCollision_fst_v (p1 p2 : Particle) :
    (resolveCollision p1 p2).1.v =
      Real.sqrt ((normalVelocity1New p1 p2) ^ 2 +
        (p1.v * Real.sin (p1.a - collisionAngle p1 p2)) ^ 2) := rfl

lemma resolveCollision_fst_a (p1 p2 : Particle) :
    (resolveCollision p1 p2).1.a =
      normalizeAngle (collisionAngle p1 p2 +
        atan2 (p1.v * Real.sin (p1.a - collisionAngle p1 p2)) (normalVelocity1New p1 p2)) := rfl

lemma resolveCollision_snd_v (p1 p2 : Particle) :
    (resolveCollision p1 p2).2.v =
      Real.sqrt ((normalVelocity2New p1 p2) ^ 2 +
        (p2.v * Real.sin (p2.a - collisionAngle p1 p2)) ^ 2) := rfl

lemma resolveCollision_snd_a (p1 p2 : Particle) :
    (resolveCollision p1 p2).2.a =
      normalizeAngle (collisionAngle p1 p2 +
        atan2 (p2.v * Real.sin (p2.a - collisionAngle p1 p2)) (normalVelocity2New p1 p2)) := rfl

/-! ## Claim C6 -/

/-- Claim C6 (amended): the normalization procedure (while a > π subtract 2π, then
while a < -π add 2π), as applied after wall and particle collisions and after the
rotation step, always yields a result in the closed interval [-π, π]; the endpoint
-π is attainable, so the half-open interval (-π, π] of the original claim is too
strong. -/
theorem normalizeAngle_range (a : ℝ) : -π ≤ normalizeAngle a ∧ normalizeAngle a ≤ π :=
  normalizeAngle_mem a

/-- Counterexample to claim C6 as stated: the starting angle -π is left unchanged by
both loops, and -π is not in the half-open interval (-π, π]. -/
theorem normalizeAngle_neg_pi_cex :
    normalizeAngle (-π) = -π ∧ ¬(-π < normalizeAngle (-π) ∧ normalizeAngle (-π) ≤ π) := by
  have h1 : wrapDown (-π) = -π := wrapDown_of_le (by linarith [Real.pi_pos])
  have h2 : normalizeAngle (-π) = -π := by
    rw [normalizeAngle, h1, wrapUp_of_ge le_rfl]
  refine ⟨h2, ?_⟩
  rw [h2]
  intro hmem
  exact lt_irrefl _ hmem.1

/-! ## Claim C8 -/

/-- Claim C8 (amended): `calculate_mean_free_path` returns the finite value
`1/(√2·ρ·σ_cross)` when the particle count and the area are nonzero and
`ρ·σ_cross ≠ 0`; it returns the value 0 (not the +∞ sentinel) when the particle
count is zero or the area is zero; the +∞ sentinel is returned only in the
remaining case `ρ·σ_cross = 0` (for example radius 0 with a positive count). -/
theorem mean_free_path_cases (nn : ℕ) (width height r1 : ℝ) :
    (nn = 0 ∨ width * height = 0 →
      calculate_mean_free_path nn width height r1 = MFPValue.val 0) ∧
    (¬(nn = 0 ∨ width * height = 0) →
      (nn : ℝ) / (width * height) * (π * (2 * r1) ^ 2) = 0 →
      calculate_mean_free_path nn width height r1 = MFPValue.infinity) ∧
    (¬(nn = 0 ∨ width * height = 0) →
      (nn : ℝ) / (width * height) * (π * (2 * r1) ^ 2) ≠ 0 →
      calculate_mean_free_path nn width height r1 =
        MFPValue.val (1 / (Real.sqrt 2 * ((nn : ℝ) / (width * height)) * (π * (2 * r1) ^ 2)))) := by
  refine ⟨fun h0 => ?_, fun h0 hz => ?_, fun h0 hz => ?_⟩
  · rw [calculate_mean_free_path, if_pos h0]
  · rw [calculate_mean_free_path, if_neg h0]
    exact if_pos hz
  · rw [calculate_mean_free_path, if_neg h0]
    exact if_neg hz

/-- Witness for the amended claim C8: with one particle of radius 0 in a 500×500
container, the function returns the +∞ sentinel. -/
theorem mean_free_path_cases_witness :
    calculate_mean_free_path 1 500 500 0 = MFPValue.infinity :=
  (mean_free_path_cases 1 500 500 0).2.1 (by norm_num) (by norm_num)

/-- Counterexample to claim C8 as stated: with zero particles the function returns
the value 0, not the +∞ sentinel claimed for zero density. -/
theorem mean_free_path_zero_count_cex :
    calculate_mean_free_path 0 500 500 5 = MFPValue.val 0 ∧
    calculate_mean_free_path 0 500 500 5 ≠ MFPValue.infinity := by
  have h : calculate_mean_free_path 0 500 500 5 = MFPValue.val 0 := by
    rw [calculate_mean_free_path, if_pos (Or.inl rfl)]
  exact ⟨h, by rw [h]; simp⟩

/-! ## Claim C9 -/

lemma mean_free_path_val {nn : ℕ} {width height r1 : ℝ} (hn : 1 ≤ nn)
    (hw : 0 < width) (hh : 0 < height) (hr : 0 < r1) :
    calculate_mean_free_path nn width height r1 =
      MFPValue.val (1 / (Real.sqrt 2 * ((nn : ℝ) / (width * height)) * (π * (2 * r1) ^ 2))) := by
  have harea : 0 < width * height := mul_pos hw hh
  have hdens : 0 < (nn : ℝ) / (width * height) := by
    apply div_pos _ harea
    exact_mod_cast Nat.lt_of_lt_of_le Nat.zero_lt_one hn
  have hcross : 0 < π * (2 * r1) ^ 2 := by positivity
  refine (mean_free_path_cases nn width height r1).2.2 ?_ ?_
  · push_neg
    exact ⟨by omega, ne_of_gt harea⟩
  · exact ne_of_gt (mul_pos hdens hcross)

/-- Claim C9 (confirmed): at fixed positive container width, height and particle
radius, a strictly larger particle count N2 > N1 ≥ 1 yields a strictly smaller
computed mean free path. -/
theorem mean_free_path_strict_anti (n1 n2 : ℕ) (width height r1 : ℝ)
    (hn1 : 1 ≤ n1) (hlt : n1 < n2) (hw : 0 < width) (hh : 0 < height) (hr : 0 < r1) :
    ∃ x y : ℝ, calculate_mean_free_path n1 width height r1 = MFPValue.val x ∧
      calculate_mean_free_path n2 width height r1 = MFPValue.val y ∧ y < x := by
  have harea : 0 < width * height := mul_pos hw hh
  have hcross : 0 < π * (2 * r1) ^ 2 := by positivity
  have hs2 : (0:ℝ) < Real.sqrt 2 := Real.sqrt_pos.mpr (by norm_num)
  have hd1 : 0 < (n1 : ℝ) / (width * height) := by
    apply div_pos _ harea
    exact_mod_cast Nat.lt_of_lt_of_le Nat.zero_lt_one hn1
  refine ⟨_, _, mean_free_path_val hn1 hw hh hr,
    mean_free_path_val (hn1.trans hlt.le) hw hh hr, ?_⟩
  apply one_div_lt_one_div_of_lt
  · exact mul_pos (mul_pos hs2 hd1) hcross
  · have hcast : (n1 : ℝ) < (n2 : ℝ) := by exact_mod_cast hlt
    have hdlt : (n1 : ℝ) / (width * height) < (n2 : ℝ) / (width * height) :=
      (div_lt_div_iff_of_pos_right harea).mpr hcast
    exact mul_lt_mul_of_pos_right (mul_lt_mul_of_pos_left hdlt hs2) hcross

/-- Witness for claim C9: going from 1 to 2 particles in a 500×500 container with
radius 5 strictly decreases the mean free path. -/
theorem mean_free_path_strict_anti_witness :
    ∃ x y : ℝ, calculate_mean_free_path 1 500 500 5 = MFPValue.val x ∧
      calculate_mean_free_path 2 500 500 5 = MFPValue.val y ∧ y < x :=
  mean_free_path_strict_anti 1 2 500 500 5 (by norm_num) (by norm_num)
    (by norm_num) (by norm_num) (by norm_num)

/-! ## Claim C10 -/

/-- Claim C10 (confirmed): both the broad-phase bound and the contact test of the
pair-collision pass use only the first particle's radius (the declared-collision
predicate is invariant under any change of the second particle's radius), and there
is a configuration and a pair of unequal-radius particles that geometrically overlap
(separation ≤ r1 + r2) yet are not declared colliding. -/
theorem collision_uses_first_radius :
    (∀ (cfg : CollisionConfig) (p1 p2 : Particle) (r r' : ℝ),
        collisionDeclared cfg p1 { p2 with radius := r } ↔
        collisionDeclared cfg p1 { p2 with radius := r' }) ∧
    (∃ (cfg : CollisionConfig) (p1 p2 : Particle),
        dist p1 p2 ≤ p1.radius + p2.radius ∧ ¬collisionDeclared cfg p1 p2) := by
  constructor
  · intro cfg p1 p2 r r'
    exact Iff.rfl
  · refine ⟨⟨2.5, 0.1, 0.01⟩, ⟨0, 0, 0, 0, 1, 5⟩, ⟨12, 0, 0, 0, 1, 15⟩, ?_, ?_⟩
    · have hdist : dist ⟨0, 0, 0, 0, 1, 5⟩ ⟨12, 0, 0, 0, 1, 15⟩ = 12 := by
        rw [dist]
        norm_num
        rw [show (144:ℝ) = 12 ^ 2 by norm_num, Real.sqrt_sq (by norm_num)]
      rw [hdist]
      norm_num
    · intro hcol
      have hdist : dist ⟨0, 0, 0, 0, 1, 5⟩ ⟨12, 0, 0, 0, 1, 15⟩ = 12 := by
        rw [dist]
        norm_num
        rw [show (144:ℝ) = 12 ^ 2 by norm_num, Real.sqrt_sq (by norm_num)]
      have hc := hcol.2
      rw [contactTest, hdist] at hc
      norm_num at hc

/-! ## Concrete configuration records used by witnesses -/

noncomputable section

/-- The default interaction-potentials configuration (defaults of src/schemas/physics.py):
all three potentials disabled. -/
def ipDefault : InteractionPotentialsConfig :=
  ⟨⟨false, 1, 10, 2.5⟩, ⟨false, 1, 0.5, 15, 3⟩, ⟨false, 1, 0.025, 10, 80, 50⟩, 10, 0.1⟩

/-- The default configuration with the Lennard-Jones potential enabled. -/
def ipLJEnabled : InteractionPotentialsConfig :=
  ⟨⟨true, 1, 10, 2.5⟩, ⟨false, 1, 0.5, 15, 3⟩, ⟨false, 1, 0.025, 10, 80, 50⟩, 10, 0.1⟩

end

/-! ## Claim C3 -/

/-- Claim C3 (confirmed): each wall check reflects the heading of a particle that has
crossed that wall while moving toward it (`a ↦ π - a` for the vertical walls,
`a ↦ -a` for the horizontal walls) and adds exactly `2·m·v·|cos a|` (respectively
`2·m·v·|sin a|`), with `a` the pre-reflection heading, to that wall's impulse
counter; a particle not satisfying the check's condition is left unchanged by it. -/
theorem wall_reflection (width height : ℝ) (p : Particle) (c : WallCounters)
    (hm : 0 ≤ p.mass) (hv : 0 ≤ p.v) :
    (p.x ≤ p.radius ∧ (π / 2 < p.a ∨ p.a < -(π / 2)) →
      checkLeftWall p c = ({ p with a := π - p.a },
        { c with delta_px_left := c.delta_px_left + 2 * p.mass * p.v * |Real.cos p.a| })) ∧
    (¬(p.x ≤ p.radius ∧ (π / 2 < p.a ∨ p.a < -(π / 2))) → checkLeftWall p c = (p, c)) ∧
    (width - p.radius ≤ p.x ∧ (-(π / 2) < p.a ∧ p.a < π / 2) →
      checkRightWall width p c = ({ p with a := π - p.a },
        { c with delta_px_right := c.delta_px_right + 2 * p.mass * p.v * |Real.cos p.a| })) ∧
    (¬(width - p.radius ≤ p.x ∧ (-(π / 2) < p.a ∧ p.a < π / 2)) →
      checkRightWall width p c = (p, c)) ∧
    (p.y ≤ p.radius ∧ (-π < p.a ∧ p.a < 0) →
      checkTopWall p c = ({ p with a := -p.a },
        { c with delta_py_up := c.delta_py_up + 2 * p.mass * p.v * |Real.sin p.a| })) ∧
    (¬(p.y ≤ p.radius ∧ (-π < p.a ∧ p.a < 0)) → checkTopWall p c = (p, c)) ∧
    (height - p.radius ≤ p.y ∧ (0 < p.a ∧ p.a < π) →
      checkBottomWall height p c = ({ p with a := -p.a },
        { c with delta_py_down := c.delta_py_down + 2 * p.mass * p.v * |Real.sin p.a| })) ∧
    (¬(height - p.radius ≤ p.y ∧ (0 < p.a ∧ p.a < π)) → checkBottomWall height p c = (p, c)) := by
  have habs : (0:ℝ) ≤ 2 * p.mass * p.v := by positivity
  have hcos : |2 * p.mass * p.v * Real.cos (π - p.a)| = 2 * p.mass * p.v * |Real.cos p.a| := by
    rw [Real.cos_pi_sub, abs_mul, abs_neg, abs_of_nonneg habs]
  have hsin : |2 * p.mass * p.v * Real.sin (-p.a)| = 2 * p.mass * p.v * |Real.sin p.a| := by
    rw [Real.sin_neg, abs_mul, abs_neg, abs_of_nonneg habs]
  refine ⟨fun h => ?_, fun h => ?_, fun h => ?_, fun h => ?_,
    fun h => ?_, fun h => ?_, fun h => ?_, fun h => ?_⟩
  · rw [checkLeftWall, if_pos h]
    rw [hcos]
  · rw [checkLeftWall, if_neg h]
  · rw [checkRightWall, if_pos h]
    rw [hcos]
  · rw [checkRightWall, if_neg h]
  · rw [checkTopWall, if_pos h]
    rw [hsin]
  · rw [checkTopWall, if_neg h]
  · rw [checkBottomWall, if_pos h]
    rw [hsin]
  · rw [checkBottomWall, if_neg h]

/-- Witness for claim C3: a particle at x = 0 with radius 5 and heading 3 ∈ (π/2, π)
(moving left) is reflected by the left-wall check and the left counter accumulates
2·1·1·|cos 3|. -/
theorem wall_reflection_witness :
    checkLeftWall ⟨0, 250, 1, 3, 1, 5⟩ ⟨0, 0, 0, 0⟩ =
      (⟨0, 250, 1, π - 3, 1, 5⟩, ⟨0 + 2 * 1 * 1 * |Real.cos 3|, 0, 0, 0⟩) :=
  (wall_reflection 500 500 ⟨0, 250, 1, 3, 1, 5⟩ ⟨0, 0, 0, 0⟩ (by norm_num) (by norm_num)).1
    ⟨by norm_num, Or.inl (by linarith [Real.pi_lt_d2])⟩

/-! ## Claim C5 -/

/-- Claim C5 (confirmed): every update of a particle's speed in the tick keeps it
non-negative: the gravity recomposition and the collision recombination produce a
square root, the heat increment adds a non-negative rate, and the freeze decrement
applies only when the result stays positive. -/
theorem speed_nonneg (g : GravityConfig) (ip : InteractionPotentialsConfig)
    (dt heat_rate freeze_rate : ℝ) (p q : Particle)
    (hv : 0 ≤ p.v) (hheat : 0 ≤ heat_rate) :
    0 ≤ (moveParticle g ip dt p).v ∧
    0 ≤ (resolveCollision p q).1.v ∧
    0 ≤ (resolveCollision q p).2.v ∧
    0 ≤ (heatParticle heat_rate p).v ∧
    0 ≤ (freezeParticle freeze_rate p).v := by
  refine ⟨?_, ?_, ?_, ?_, ?_⟩
  · obtain ⟨ge, gg⟩ := g
    cases ge
    · simpa [moveParticle] using hv
    · simp [moveParticle]
  · rw [resolveCollision_fst_v]
    exact Real.sqrt_nonneg _
  · rw [resolveCollision_snd_v]
    exact Real.sqrt_nonneg _
  · exact add_nonneg hv hheat
  · rw [freezeParticle]
    split_ifs with h
    · exact le_of_lt h
    · exact hv

/-- Witness for claim C5 at a concrete particle with v = 1 and the default rates. -/
theorem speed_nonneg_witness :
    0 ≤ (moveParticle ⟨true, 9.8⟩ ipDefault 0.01 ⟨1, 1, 1, 0, 1, 5⟩).v ∧
    0 ≤ (heatParticle 0.05 ⟨1, 1, 1, 0, 1, 5⟩).v ∧
    0 ≤ (freezeParticle 0.05 ⟨1, 1, 1, 0, 1, 5⟩).v := by
  have h := speed_nonneg ⟨true, 9.8⟩ ipDefault 0.01 0.05 0.05
    ⟨1, 1, 1, 0, 1, 5⟩ ⟨2, 2, 1, 0, 1, 5⟩ (by norm_num) (by norm_num)
  exact ⟨h.1, h.2.2.2.1, h.2.2.2.2⟩

/-! ## Claim C7 -/

/-- Pointwise order on the four wall counters. -/
def countersLE (c d : WallCounters) : Prop :=
  c.delta_px_left ≤ d.delta_px_left ∧ c.delta_px_right ≤ d.delta_px_right ∧
  c.delta_py_up ≤ d.delta_py_up ∧ c.delta_py_down ≤ d.delta_py_down

lemma countersLE_refl (c : WallCounters) : countersLE c c :=
  ⟨le_refl _, le_refl _, le_refl _, le_refl _⟩

lemma countersLE_trans {a b c : WallCounters} (h1 : countersLE a b) (h2 : countersLE b c) :
    countersLE a c :=
  ⟨h1.1.trans h2.1, h1.2.1.trans h2.2.1, h1.2.2.1.trans h2.2.2.1, h1.2.2.2.trans h2.2.2.2⟩

lemma checkLeftWall_counters (p : Particle) (c : WallCounters) :
    countersLE c (checkLeftWall p c).2 := by
  rw [checkLeftWall]
  split_ifs with h
  · exact ⟨le_add_of_nonneg_right (abs_nonneg _), le_refl _, le_refl _, le_refl _⟩
  · exact countersLE_refl c

lemma checkRightWall_counters (width : ℝ) (p : Particle) (c : WallCounters) :
    countersLE c (checkRightWall width p c).2 := by
  rw [checkRightWall]
  split_ifs with h
  · exact ⟨le_refl _, le_add_of_nonneg_right (abs_nonneg _), le_refl _, le_refl _⟩
  · exact countersLE_refl c

lemma checkTopWall_counters (p : Particle) (c : WallCounters) :
    countersLE c (checkTopWall p c).2 := by
  rw [checkTopWall]
  split_ifs with h
  · exact ⟨le_refl _, le_refl _, le_add_of_nonneg_right (abs_nonneg _), le_refl _⟩
  · exact countersLE_refl c

lemma checkBottomWall_counters (height : ℝ) (p : Particle) (c : WallCounters) :
    countersLE c (checkBottomWall height p c).2 := by
  rw [checkBottomWall]
  split_ifs with h
  · exact ⟨le_refl _, le_refl _, le_refl _, le_add_of_nonneg_right (abs_nonneg _)⟩
  · exact countersLE_refl c

lemma wallPass_counters (width height : ℝ) (p : Particle) (c : WallCounters) :
    countersLE c (wallPass width height p c).2 :=
  countersLE_trans
    (countersLE_trans
      (countersLE_trans (checkLeftWall_counters p c) (checkRightWall_counters width _ _))
      (checkTopWall_counters _ _))
    (checkBottomWall_counters height _ _)

/-- Claim C7 (confirmed): the value appended to the pressure series at an aggregation
boundary is exactly ((left+right)/(check_interval·height) + (up+down)/(check_interval·width))/4
computed from the accumulated counters; all four counters are reset to zero by the
aggregation step; and the wall pass only ever increases the counters (each by a
non-negative absolute value), so they are non-decreasing within an interval. -/
theorem pressure_aggregation (time_check width height : ℝ) (s : AggState)
    (p : Particle) (c : WallCounters) :
    (aggregateStep time_check width height s).Pressure =
      s.Pressure ++
        [((s.counters.delta_px_left + s.counters.delta_px_right) / (time_check * height) +
          (s.counters.delta_py_up + s.counters.delta_py_down) / (time_check * width)) / 4] ∧
    (aggregateStep time_check width height s).counters = ⟨0, 0, 0, 0⟩ ∧
    countersLE c (wallPass width height p c).2 :=
  ⟨rfl, rfl, wallPass_counters width height p c⟩

/-! ## Claim C2 -/

/-- Claim C2 (amended): the per-tick update contains no pairwise-force step at all —
the interaction-potentials configuration is never consumed, so the motion update is
the same for any potentials configuration (enabled or not), and with gravity off it
reduces to the bare positional update x += v·cos a, y += v·sin a with velocity
unchanged. -/
theorem no_pairwise_force_step (g : GravityConfig) (ip ip' : InteractionPotentialsConfig)
    (dt : ℝ) (p : Particle) :
    moveParticle g ip dt p = moveParticle g ip' dt p ∧
    (g.enabled = false →
      moveParticle g ip dt p =
        { p with x := p.x + p.v * Real.cos p.a, y := p.y + p.v * Real.sin p.a }) := by
  constructor
  · rfl
  · intro hg
    simp [moveParticle, hg]

/-- Witness for the amended claim C2: a concrete particle at rest, gravity off,
defaults for the potentials configuration. -/
theorem no_pairwise_force_step_witness :
    moveParticle ⟨false, 9.8⟩ ipDefault 0.01 ⟨0, 0, 0, 0, 1, 5⟩ =
      ⟨0 + 0 * Real.cos 0, 0 + 0 * Real.sin 0, 0, 0, 1, 5⟩ :=
  (no_pairwise_force_step ⟨false, 9.8⟩ ipDefault ipDefault 0.01 ⟨0, 0, 0, 0, 1, 5⟩).2 rfl

/-- Counterexample to claim C2 as stated: two particles at rest separated by exactly
σ = 10 (the second at (10, 0), well inside the Lennard-Jones cutoff 2.5σ), with the
Lennard-Jones potential enabled (ε = 1, σ = 10), m = 1, dt = 0.01. The spec's
pairwise-force step would give particle 1 the x-velocity Fx/m·dt = -0.024 entering
the positional update; the code moves the particle by exactly 0, so its effective
x-velocity is 0, not the spec's value. -/
theorem no_pairwise_force_step_cex :
    ¬((moveParticle ⟨false, 9.8⟩ ipLJEnabled 0.01 ⟨0, 0, 0, 0, 1, 5⟩).x - (0 : ℝ) =
      specForceStepVx ⟨0, 0, 0, 0, 1, 5⟩ (-specLJForce 1 10 10) 0.01) := by
  have hx : (moveParticle ⟨false, 9.8⟩ ipLJEnabled 0.01 ⟨0, 0, 0, 0, 1, 5⟩).x = 0 := by
    simp [moveParticle]
  rw [hx, specForceStepVx, specLJForce]
  norm_num

/-! ## Claim C1 -/

/-- Claim C1 (amended): the resolution rotates into the collision-normal frame and
decomposes velocities as the claim says, but the new normal components are an
unconditional swap — the written mass factors `(2·m1·…)/(2·m1)` cancel, so
`n1' = v2·cos(a2−φ)` and `n2' = v1·cos(a1−φ)` for any masses — and total momentum
along the normal is conserved by this exchange when the two masses are equal (the
general unequal-mass elastic formula is not implemented). -/
theorem collision_normal_exchange (p1 p2 : Particle) (hm : p1.mass ≠ 0) :
    normalVelocity1New p1 p2 = p2.v * Real.cos (p2.a - collisionAngle p1 p2) ∧
    normalVelocity2New p1 p2 = p1.v * Real.cos (p1.a - collisionAngle p1 p2) ∧
    (p1.mass = p2.mass →
      p1.mass * normalVelocity1New p1 p2 + p2.mass * normalVelocity2New p1 p2 =
      p1.mass * (p1.v * Real.cos (p1.a - collisionAngle p1 p2)) +
      p2.mass * (p2.v * Real.cos (p2.a - collisionAngle p1 p2))) := by
  have h1 : normalVelocity1New p1 p2 = p2.v * Real.cos (p2.a - collisionAngle p1 p2) := by
    rw [normalVelocity1New]
    field_simp
    ring
  have h2 : normalVelocity2New p1 p2 = p1.v * Real.cos (p1.a - collisionAngle p1 p2) := by
    rw [normalVelocity2New]
    field_simp
    ring
  refine ⟨h1, h2, fun hmeq => ?_⟩
  rw [h1, h2, hmeq]
  ring

/-- Witness for the amended claim C1 at a concrete equal-mass head-on pair. -/
theorem collision_normal_exchange_witness :
    (1 : ℝ) * normalVelocity1New ⟨0, 0, 1, 0, 1, 5⟩ ⟨1, 0, 1, π, 1, 5⟩ +
      1 * normalVelocity2New ⟨0, 0, 1, 0, 1, 5⟩ ⟨1, 0, 1, π, 1, 5⟩ =
    1 * ((1 : ℝ) * Real.cos (0 - collisionAngle ⟨0, 0, 1, 0, 1, 5⟩ ⟨1, 0, 1, π, 1, 5⟩)) +
    1 * ((1 : ℝ) * Real.cos (π - collisionAngle ⟨0, 0, 1, 0, 1, 5⟩ ⟨1, 0, 1, π, 1, 5⟩)) :=
  (collision_normal_exchange ⟨0, 0, 1, 0, 1, 5⟩ ⟨1, 0, 1, π, 1, 5⟩ (by norm_num)).2.2 rfl

/-- Counterexample to claim C1 as stated: a head-on unequal-mass pair (m1 = 1, m2 = 2,
unit speeds, centres at (0,0) and (1,0)) for which the exchange does not conserve
total momentum along the collision normal: after the exchange it is 1, before it
is -1. -/
theorem collision_normal_exchange_cex :
    ¬((1 : ℝ) * normalVelocity1New ⟨0, 0, 1, 0, 1, 5⟩ ⟨1, 0, 1, π, 2, 5⟩ +
        2 * normalVelocity2New ⟨0, 0, 1, 0, 1, 5⟩ ⟨1, 0, 1, π, 2, 5⟩ =
      1 * ((1 : ℝ) * Real.cos (0 - collisionAngle ⟨0, 0, 1, 0, 1, 5⟩ ⟨1, 0, 1, π, 2, 5⟩)) +
      2 * ((1 : ℝ) * Real.cos (π - collisionAngle ⟨0, 0, 1, 0, 1, 5⟩ ⟨1, 0, 1, π, 2, 5⟩))) := by
  have hφ : collisionAngle ⟨0, 0, 1, 0, 1, 5⟩ ⟨1, 0, 1, π, 2, 5⟩ = 0 := by
    rw [collisionAngle]
    norm_num
    exact atan2_zero_of_pos one_pos
  rw [normalVelocity1New, normalVelocity2New, hφ]
  norm_num [Real.cos_pi]

/-! ## Claim C4 -/

/-- Claim C4 (confirmed): for a colliding pair of equal mass and equal-magnitude,
exactly opposite velocities directed along the line of centers (head-on, zero
tangential components — stated here as cos/sin of each heading being ±(Δx/d, Δy/d)),
the resolved velocity vector of each particle is the exact negation of its
pre-collision velocity vector. -/
theorem headon_equal_mass_negation (p1 p2 : Particle)
    (hm1 : 0 < p1.mass) (hmeq : p1.mass = p2.mass)
    (hv1 : 0 < p1.v) (hv2 : p2.v = p1.v)
    (d : ℝ) (hd : d = dist p1 p2) (hd0 : 0 < d)
    (hc1 : Real.cos p1.a = (p2.x - p1.x) / d)
    (hs1 : Real.sin p1.a = (p2.y - p1.y) / d)
    (hc2 : Real.cos p2.a = -((p2.x - p1.x) / d))
    (hs2 : Real.sin p2.a = -((p2.y - p1.y) / d)) :
    ((resolveCollision p1 p2).1.v * Real.cos (resolveCollision p1 p2).1.a =
        -(p1.v * Real.cos p1.a) ∧
      (resolveCollision p1 p2).1.v * Real.sin (resolveCollision p1 p2).1.a =
        -(p1.v * Real.sin p1.a)) ∧
    ((resolveCollision p1 p2).2.v * Real.cos (resolveCollision p1 p2).2.a =
        -(p2.v * Real.cos p2.a) ∧
      (resolveCollision p1 p2).2.v * Real.sin (resolveCollision p1 p2).2.a =
        -(p2.v * Real.sin p2.a)) := by
  have hdne : d ≠ 0 := ne_of_gt hd0
  have harg : (0:ℝ) ≤ (p1.x - p2.x) ^ 2 + (p1.y - p2.y) ^ 2 := by positivity
  have hd2 : d ^ 2 = (p2.x - p1.x) ^ 2 + (p2.y - p1.y) ^ 2 := by
    rw [hd, dist, Real.sq_sqrt harg]
    ring
  have hsqrt : Real.sqrt ((p2.x - p1.x) ^ 2 + (p2.y - p1.y) ^ 2) = d := by
    rw [← hd2]
    exact Real.sqrt_sq hd0.le
  have hne : ¬(p2.x - p1.x = 0 ∧ p2.y - p1.y = 0) := by
    rintro ⟨hx0, hy0⟩
    rw [hx0, hy0] at hd2
    have : d ^ 2 = 0 := by rw [hd2]; ring
    exact hdne (pow_eq_zero_iff (by norm_num) |>.mp this)
  have hφc : Real.cos (collisionAngle p1 p2) = (p2.x - p1.x) / d := by
    rw [collisionAngle, cos_atan2 hne, hsqrt]
  have hφs : Real.sin (collisionAngle p1 p2) = (p2.y - p1.y) / d := by
    rw [collisionAngle, sin_atan2, hsqrt]
  have hcva1 : Real.cos (p1.a - collisionAngle p1 p2) = 1 := by
    rw [Real.cos_sub, hc1, hs1, hφc, hφs]
    field_simp
    linear_combination -hd2
  have hsva1 : Real.sin (p1.a - collisionAngle p1 p2) = 0 := by
    rw [Real.sin_sub, hs1, hc1, hφc, hφs]
    ring
  have hcva2 : Real.cos (p2.a - collisionAngle p1 p2) = -1 := by
    rw [Real.cos_sub, hc2, hs2, hφc, hφs]
    field_simp
    linear_combination hd2
  have hsva2 : Real.sin (p2.a - collisionAngle p1 p2) = 0 := by
    rw [Real.sin_sub, hs2, hc2, hφc, hφs]
    ring
  have h2m : (2:ℝ) * p1.mass ≠ 0 := by positivity
  have hn1 : normalVelocity1New p1 p2 = -p1.v := by
    rw [normalVelocity1New, hcva2, hv2,
      show (2:ℝ) * p1.mass * p1.v * (-1) = 2 * p1.mass * -p1.v by ring,
      mul_div_cancel_left₀ _ h2m]
  have hn2 : normalVelocity2New p1 p2 = p1.v := by
    rw [normalVelocity2New, hcva1,
      show (2:ℝ) * p1.mass * p1.v * 1 = 2 * p1.mass * p1.v by ring,
      mul_div_cancel_left₀ _ h2m]
  have hv1' : (resolveCollision p1 p2).1.v = p1.v := by
    rw [resolveCollision_fst_v, hn1, hsva1]
    rw [show (-p1.v) ^ 2 + (p1.v * 0) ^ 2 = p1.v ^ 2 by ring]
    exact Real.sqrt_sq hv1.le
  have hv2' : (resolveCollision p1 p2).2.v = p1.v := by
    rw [resolveCollision_snd_v, hn2, hsva2]
    rw [show p1.v ^ 2 + (p2.v * 0) ^ 2 = p1.v ^ 2 by ring]
    exact Real.sqrt_sq hv1.le
  have ha1 : (resolveCollision p1 p2).1.a =
      normalizeAngle (collisionAngle p1 p2 + π) := by
    rw [resolveCollision_fst_a, hsva1, mul_zero, hn1,
      atan2_zero_of_neg (neg_lt_zero.mpr hv1)]
  have ha2 : (resolveCollision p1 p2).2.a =
      normalizeAngle (collisionAngle p1 p2 + 0) := by
    rw [resolveCollision_snd_a, hsva2, mul_zero, hn2, atan2_zero_of_pos hv1]
  refine ⟨⟨?_, ?_⟩, ?_, ?_⟩
  · rw [hv1', ha1, cos_normalizeAngle, Real.cos_add_pi, hφc, hc1]
    ring
  · rw [hv1', ha1, sin_normalizeAngle, Real.sin_add_pi, hφs, hs1]
    ring
  · rw [hv2', ha2, cos_normalizeAngle, add_zero, hφc, hv2, hc2]
    ring
  · rw [hv2', ha2, sin_normalizeAngle, add_zero, hφs, hv2, hs2]
    ring

/-- Witness for claim C4: unit-mass particles at (0,0) and (1,0), unit speeds, headings
0 and π — a head-on collision whose resolution negates particle 1's velocity vector. -/
theorem headon_equal_mass_negation_witness :
    (resolveCollision ⟨0, 0, 1, 0, 1, 1⟩ ⟨1, 0, 1, π, 1, 1⟩).1.v *
        Real.cos (resolveCollision ⟨0, 0, 1, 0, 1, 1⟩ ⟨1, 0, 1, π, 1, 1⟩).1.a =
      -((1 : ℝ) * Real.cos 0) :=
  (headon_equal_mass_negation ⟨0, 0, 1, 0, 1, 1⟩ ⟨1, 0, 1, π, 1, 1⟩
    (by norm_num) rfl (by norm_num) rfl 1
    (by rw [dist]; norm_num)
    (by norm_num)
    (by norm_num [Real.cos_zero])
    (by norm_num [Real.sin_zero])
    (by norm_num [Real.cos_pi])
    (by norm_num [Real.sin_pi])).1.1

end GasSim
